import Mathlib

set_option maxHeartbeats 1000000

/-! Shallow embedding of src/tasks.js: the PlatformIO task provider for a
host IDE.  The module reads a parsed INI configuration, extracts build
environments, filters a fixed catalog of task templates by platform
compatibility and assembles an ordered task list; around this sit a debounce
timer, a watcher lifecycle and an executable search.  Pure functions below
are translated clause by clause from the source; the stateful parts
(debounce, lifecycle) are step functions over explicit state. -/

/-- JS string method startsWith: true when p is a prefix of s. -/
def strStartsWith (s p : String) : Bool :=
  decide (s.data.take p.data.length = p.data)

/-- JS string method slice with a nonnegative start index: drops the first n
characters of s. -/
def strSlice (s : String) (n : Nat) : String :=
  ⟨s.data.drop n⟩

/-- Entry of the static task catalog (PIOTasksProvider.baseTasks): a display
name together with the base command-line argument list. -/
structure TaskTemplate where
  name : String
  args : List String
  deriving DecidableEq

/-- Task group classification assigned by TaskCreator.create. -/
inductive TaskGroup where
  | Build
  | Clean
  | Test
  | NoGroup
  deriving DecidableEq

/-- Output unit produced by TaskCreator.create, restricted to the data the
generated task carries: resolved display name, argument list and group. -/
structure TaskDescriptor where
  displayName : String
  args : List String
  group : TaskGroup
  deriving DecidableEq

/-- One section of the parsed platformio.ini: the section name and the value
of its platform key when present (none when the key is absent).  ini.parse
yields an object, hence at most one section per name. -/
structure ConfigSection where
  name : String
  platform : Option String
  deriving DecidableEq

/-- Result of ini.parse: the sections in declaration order. -/
abbrev ProjectConf := List ConfigSection

/-- Environment entry pushed onto projectData inside getTasks. -/
structure EnvData where
  env : String
  platform : String
  deriving DecidableEq

/-- PIOTasksProvider.AUTO_REFRESH_DELAY, in milliseconds. -/
def AUTO_REFRESH_DELAY : Nat := 1000

/-- PIOTasksProvider.ENV_NAME_PREFIX: the marker of environment sections. -/
def envNamePref : String := "env:"

/-- Static catalog PIOTasksProvider.baseTasks, in source order. -/
def baseTasks : List TaskTemplate :=
  [{ name := "Build", args := ["run"] },
   { name := "Clean", args := ["run", "--target", "clean"] },
   { name := "Upload", args := ["run", "--target", "upload"] },
   { name := "Upload and Monitor",
     args := ["run", "--target", "upload", "--target", "monitor"] },
   { name := "Upload using Programmer", args := ["run", "--target", "program"] },
   { name := "Upload SPIFFS image", args := ["run", "--target", "uploadfs"] },
   { name := "Monitor", args := ["device", "monitor"] },
   { name := "Test", args := ["test"] },
   { name := "Remote", args := ["remote", "run", "--target", "upload"] },
   { name := "Pre-Debug", args := ["debug"] }]

/-- PIOTasksProvider.taskCompatibleWithPlatform, translated clause by clause
from the two early returns of the source. -/
def taskCompatibleWithPlatform (task : TaskTemplate) (platform : String) : Bool :=
  if task.args.contains "program" && !(platform == "atmelavr") then
    false
  else if task.args.contains "uploadfs" && !(strStartsWith platform "espressif") then
    false
  else
    true

/-- TaskCreator getter coreEnvName: the argument following the first
occurrence of the environment flag; none when the flag is absent or is the
last argument (JS yields undefined in both cases). -/
def coreEnvName (args : List String) : Option String :=
  match args.indexOf? "--environment" with
  | some i => args[i + 1]?
  | none => none

/-- TaskCreator getter name: the raw name with the environment suffix
appended when coreEnvName is truthy (JS treats undefined and the empty
string alike as falsy). -/
def taskDisplayName (name : String) (args : List String) : String :=
  match coreEnvName args with
  | some env => if env = "" then name else name ++ " (" ++ env ++ ")"
  | none => name

/-- Group classification performed in TaskCreator.create through isBuild,
isClean and isTest, each a startsWith test on the raw task name. -/
def taskGroup (name : String) : TaskGroup :=
  if strStartsWith name "Build" then TaskGroup.Build
  else if strStartsWith name "Clean" then TaskGroup.Clean
  else if strStartsWith name "Test" then TaskGroup.Test
  else TaskGroup.NoGroup

/-- TaskCreator.create as far as the produced task data is concerned:
display name, arguments and group. -/
def createTask (name : String) (args : List String) : TaskDescriptor :=
  { displayName := taskDisplayName name args
    args := args
    group := taskGroup name }

/-- One iteration of the projectData loop in getTasks: a section contributes
an environment exactly when its platform value is truthy (present and
non-empty) and its name starts with the environment marker. -/
def envOfSection (sec : ConfigSection) : Option EnvData :=
  match sec.platform with
  | none => none
  | some p =>
    if p = "" then none
    else if strStartsWith sec.name envNamePref then
      some { env := strSlice sec.name envNamePref.length, platform := p }
    else none

/-- JS truthiness of the platform value read from a section. -/
def platformTruthy : Option String → Bool
  | none => false
  | some p => !(p == "")

/-- projectData as computed by getTasks, in section declaration order. -/
def extractProjectData (conf : ProjectConf) : List EnvData :=
  conf.filterMap envOfSection

/-- Base (unqualified) portion of the getTasks output: one task per catalog
template for which some declared environment is compatible. -/
def baseTaskList (pd : List EnvData) : List TaskDescriptor :=
  baseTasks.filterMap fun task =>
    if pd.any fun data => taskCompatibleWithPlatform task data.platform then
      some (createTask task.name task.args)
    else none

/-- Environment-qualified portion of the getTasks output (the nested forEach
of the source): for each environment in order, every compatible template
with the environment flag and the environment name appended. -/
def envTaskList (pd : List EnvData) : List TaskDescriptor :=
  pd.flatMap fun data =>
    baseTasks.filterMap fun task =>
      if taskCompatibleWithPlatform task data.platform then
        some (createTask task.name (task.args ++ ["--environment", data.env]))
      else none

/-- Three PIO Core tasks pushed unconditionally at the end of getTasks. -/
def utilityTasks : List TaskDescriptor :=
  [createTask "Rebuild IntelliSense Index" ["init", "--ide", "vscode"],
   createTask "Update installed platforms, packages and libraries" ["update"],
   createTask "Upgrade PlatformIO Core" ["upgrade"]]

/-- Successful branch of PIOTasksProvider.getTasks over an already parsed
configuration: base tasks, then (only with more than one environment) the
environment tasks, then the PIO Core tasks. -/
def getTasksFromConf (conf : ProjectConf) : List TaskDescriptor :=
  baseTaskList (extractProjectData conf) ++
    (if (extractProjectData conf).length > 1 then envTaskList (extractProjectData conf)
     else []) ++
    utilityTasks

/-- Outcome of reading and parsing platformio.ini inside getTasks: the try
block either yields a parsed configuration or throws (unreadable file or
unparseable content). -/
inductive ConfigLoadResult where
  | ok (conf : ProjectConf)
  | err
  deriving DecidableEq

/-- PIOTasksProvider.getTasks including its try/catch: the produced task
list together with the number of error messages shown to the user. -/
def getTasks : ConfigLoadResult → List TaskDescriptor × Nat
  | ConfigLoadResult.ok conf => (getTasksFromConf conf, 0)
  | ConfigLoadResult.err => ([], 1)

/-- State transition of requestRefresh on one trigger: the state is the
absolute time at which a pending timer will fire (if any) together with the
number of completed refresh runs.  Processing a trigger at time t first lets
a due pending timer fire, then cancels any pending timer and schedules a
fresh one AUTO_REFRESH_DELAY later (clearTimeout followed by setTimeout). -/
def debounceStep (s : Option Nat × Nat) (t : Nat) : Option Nat × Nat :=
  match s with
  | (pending, fired) =>
    let fired' :=
      match pending with
      | some ft => if ft ≤ t then fired + 1 else fired
      | none => fired
    (some (t + AUTO_REFRESH_DELAY), fired')

/-- Number of refresh executions produced by a sequence of trigger times:
run the triggers through requestRefresh and let a timer still pending at the
end fire eventually. -/
def countRegenerations (ts : List Nat) : Nat :=
  match ts.foldl debounceStep (none, 0) with
  | (some _, fired) => fired + 1
  | (none, fired) => fired

/-- Observable state of one PIOTasksProvider instance: how many host
subscriptions are registered, whether a refresh timer is pending, and how
many refresh runs have executed. -/
structure ProviderState where
  subs : Nat
  pending : Bool
  refreshes : Nat
  deriving DecidableEq

/-- External events handled by a provider instance: trigger covers the
constructor, onDidCreate and onDidChange paths (each calls requestRefresh);
deleteCfg is the onDidDelete handler (it calls dispose); timerFire is the
pending debounce timer elapsing (it runs refresh). -/
inductive PIOEvent where
  | trigger
  | deleteCfg
  | timerFire
  deriving DecidableEq

/-- Number of subscriptions refresh registers: the task provider, the file
watcher and its three event handlers. -/
def SUBSCRIPTION_COUNT : Nat := 5

/-- One event step of the provider lifecycle.  requestRefresh only resets
the timer; dispose releases every subscription but leaves a pending timer
untouched; a firing timer runs refresh, which disposes and then registers
the task provider, the watcher and its handlers. -/
def lifecycleStep (s : ProviderState) : PIOEvent → ProviderState
  | PIOEvent.trigger => { s with pending := true }
  | PIOEvent.deleteCfg => { s with subs := 0 }
  | PIOEvent.timerFire =>
    if s.pending then
      { subs := SUBSCRIPTION_COUNT, pending := false, refreshes := s.refreshes + 1 }
    else s

/-- Provider state evolution over a sequence of events. -/
def runLifecycle (s : ProviderState) (evts : List PIOEvent) : ProviderState :=
  evts.foldl lifecycleStep s

/-- State right after the constructor ran: no subscriptions yet and one
refresh scheduled by the initial requestRefresh call. -/
def initialState : ProviderState :=
  { subs := 0, pending := true, refreshes := 0 }

/-- Node path.join of one directory and one file name on the recognized
Windows platform. -/
def pathJoin (dir file : String) : String := dir ++ "\\" ++ file

/-- Executable resolution in TaskCreator.create as written: on Windows the
candidate starts as platformio.exe and the forEach over the search-path
directories replaces the candidate by pathJoin item candidate whenever that
path is a file.  The JS return inside the forEach callback does not stop the
iteration, so later directories are joined with the already resolved
candidate.  Off Windows the bare name platformio is used and no search
runs. -/
def resolvePioCmd (isWindows : Bool) (searchPaths : List String)
    (isFile : String → Bool) : String :=
  if isWindows then
    searchPaths.foldl
      (fun pioCmd item =>
        if isFile (pathJoin item pioCmd) then pathJoin item pioCmd else pioCmd)
      "platformio.exe"
  else
    "platformio"

/-- Specification-side model of executable resolution (spec sections 6 and
9, stated in its words): on Windows, the path joining the first search-path
directory that contains the candidate file platformio.exe, or the default
unqualified name when no directory does; off Windows the bare name
platformio. -/
def resolvePioCmdSpec (isWindows : Bool) (searchPaths : List String)
    (isFile : String → Bool) : String :=
  if isWindows then
    match searchPaths.find? fun item => isFile (pathJoin item "platformio.exe") with
    | some item => pathJoin item "platformio.exe"
    | none => "platformio.exe"
  else
    "platformio"

/-- Base tasks as the specification words them (section 4.2 step 3): the
catalog filtered to templates some declared environment is compatible with,
each mapped to a task carrying the raw template arguments. -/
def specBaseSegment (pd : List EnvData) : List TaskDescriptor :=
  (baseTasks.filter fun t => pd.any fun d => taskCompatibleWithPlatform t d.platform).map
    fun t => createTask t.name t.args

/-- Environment-qualified tasks as the specification words them (section 4.2
step 4): grouped by environment in declaration order, templates in catalog
order within each group, arguments extended by the environment flag and
name. -/
def specEnvSegment (pd : List EnvData) : List TaskDescriptor :=
  pd.flatMap fun d =>
    (baseTasks.filter fun t => taskCompatibleWithPlatform t d.platform).map
      fun t => createTask t.name (t.args ++ ["--environment", d.env])

/-! Helper lemmas about the embedded definitions. -/

lemma createTask_args (n : String) (a : List String) : (createTask n a).args = a := rfl

lemma strDataInj {s1 s2 : String} (h : s1.data = s2.data) : s1 = s2 :=
  congrArg String.mk h

lemma filterMap_if_eq {α β : Type _} (p : α → Bool) (f : α → β) :
    ∀ l : List α,
      (l.filterMap fun a => if p a then some (f a) else none) = (l.filter p).map f := by
  intro l
  induction l with
  | nil => rfl
  | cons a l ih =>
    by_cases h : p a <;> simp [List.filterMap_cons, List.filter_cons, h, ih]

lemma compat_args_only {t1 t2 : TaskTemplate} (p : String) (h : t1.args = t2.args) :
    taskCompatibleWithPlatform t1 p = taskCompatibleWithPlatform t2 p := by
  simp only [taskCompatibleWithPlatform, h]

lemma compat_char (t : TaskTemplate) (p : String) :
    taskCompatibleWithPlatform t p = true ↔
      (("program" ∈ t.args → p = "atmelavr") ∧
       ("uploadfs" ∈ t.args → strStartsWith p "espressif" = true)) := by
  by_cases hprog : "program" ∈ t.args <;> by_cases hfs : "uploadfs" ∈ t.args <;>
    by_cases hp : p = "atmelavr" <;> by_cases hs : strStartsWith p "espressif" = true <;>
    simp [taskCompatibleWithPlatform, hprog, hfs, hp, hs]

lemma noEnvFlagInCatalog : ∀ t ∈ baseTasks, ¬("--environment" ∈ t.args) := by decide

lemma catalogArgsNodup : (baseTasks.map TaskTemplate.args).Nodup := by decide

lemma countP_args_eq_one :
    ∀ {l : List TaskTemplate}, (l.map TaskTemplate.args).Nodup → ∀ {t : TaskTemplate}, t ∈ l →
      l.countP (fun t2 => decide (t2.args = t.args)) = 1 := by
  intro l
  induction l with
  | nil => intro _ t ht; cases ht
  | cons a l ih =>
    intro hnd t ht
    rw [List.map_cons, List.nodup_cons] at hnd
    rw [List.countP_cons]
    rcases List.mem_cons.mp ht with rfl | ht2
    · have h0 : l.countP (fun t2 => decide (t2.args = t.args)) = 0 := by
        rw [List.countP_eq_zero]
        intro b hb
        simp only [decide_eq_true_eq]
        intro hba
        exact hnd.1 (hba ▸ List.mem_map_of_mem TaskTemplate.args hb)
      simp [h0]
    · have hne : ¬(a.args = t.args) := by
        intro hae
        exact hnd.1 (hae ▸ List.mem_map_of_mem TaskTemplate.args ht2)
      simp [ih hnd.2 ht2, hne]

lemma append_pair_inj {a b1 b2 : String} :
    ∀ {l1 l2 : List String}, a ∉ l1 → a ∉ l2 →
      l1 ++ [a, b1] = l2 ++ [a, b2] → l1 = l2 ∧ b1 = b2 := by
  intro l1
  induction l1 with
  | nil =>
    intro l2 _ h2 heq
    cases l2 with
    | nil => simpa using heq
    | cons c l2 =>
      exfalso
      simp only [List.nil_append, List.cons_append, List.cons.injEq] at heq
      exact h2 (heq.1 ▸ List.mem_cons_self c l2)
  | cons x l1 ih =>
    intro l2 h1 h2 heq
    cases l2 with
    | nil =>
      exfalso
      simp only [List.cons_append, List.nil_append, List.cons.injEq] at heq
      exact h1 (heq.1 ▸ List.mem_cons_self x l1)
    | cons y l2 =>
      simp only [List.cons_append, List.cons.injEq] at heq
      have hr := ih (fun h => h1 (List.mem_cons_of_mem x h))
        (fun h => h2 (List.mem_cons_of_mem y h)) heq.2
      exact ⟨by rw [heq.1, hr.1], hr.2⟩

lemma countP_flatMap_sum {α β : Type _} (p : β → Bool) (f : α → List β) (l : List α) :
    (l.flatMap f).countP p = (l.map fun a => (f a).countP p).sum := by
  simp only [List.flatMap, List.countP_flatten, List.map_map]
  rfl

lemma envOfSection_shape {sec : ConfigSection} {d : EnvData}
    (h : envOfSection sec = some d) :
    sec.name.data = envNamePref.data ++ d.env.data := by
  obtain ⟨nm, pl⟩ := sec
  cases pl with
  | none => simp [envOfSection] at h
  | some p =>
    simp only [envOfSection] at h
    split_ifs at h with he hs
    · cases h
      have htake : nm.data.take envNamePref.data.length = envNamePref.data :=
        of_decide_eq_true hs
      have hsplit := (List.take_append_drop envNamePref.data.length nm.data).symm
      rw [htake] at hsplit
      exact hsplit

lemma envNames_nodup {conf : ProjectConf}
    (h : (conf.map ConfigSection.name).Nodup) :
    ((extractProjectData conf).map EnvData.env).Nodup := by
  unfold extractProjectData
  rw [List.Nodup, List.pairwise_map, List.pairwise_filterMap]
  rw [List.Nodup, List.pairwise_map] at h
  refine h.imp ?_
  intro a b hab d1 h1 d2 h2 henv
  apply hab
  apply strDataInj
  rw [envOfSection_shape (Option.mem_def.mp h1), envOfSection_shape (Option.mem_def.mp h2),
    henv]

lemma coreEnvName_of_not_mem {args : List String} (h : "--environment" ∉ args) :
    coreEnvName args = none := by
  unfold coreEnvName
  have hidx : args.indexOf? "--environment" = none := by
    rw [List.indexOf?, List.findIdx?_eq_none_iff]
    intro x hx
    exact beq_eq_false_iff_ne.mpr fun hxe => h (hxe ▸ hx)
  rw [hidx]

lemma coreEnvName_append {args : List String} (h : "--environment" ∉ args) (env : String) :
    coreEnvName (args ++ ["--environment", env]) = some env := by
  unfold coreEnvName
  have h1 : (args ++ ["--environment", env]).indexOf? "--environment" = some args.length := by
    rw [List.indexOf?, List.findIdx?_append]
    have hn : args.findIdx? (· == "--environment") = none := by
      rw [List.findIdx?_eq_none_iff]
      intro x hx
      exact beq_eq_false_iff_ne.mpr fun hxe => h (hxe ▸ hx)
    simp [hn]
  rw [h1]
  show (args ++ ["--environment", env])[args.length + 1]? = some env
  rw [List.getElem?_append_right (by omega)]
  simp

lemma displayName_of_no_flag {args : List String} (h : "--environment" ∉ args)
    (n : String) : taskDisplayName n args = n := by
  simp [taskDisplayName, coreEnvName_of_not_mem h]

lemma displayName_append {args : List String} (h : "--environment" ∉ args)
    (n env : String) :
    taskDisplayName n (args ++ ["--environment", env]) =
      if env = "" then n else n ++ " (" ++ env ++ ")" := by
  simp [taskDisplayName, coreEnvName_append h]

lemma mem_baseTaskList {pd : List EnvData} {x : TaskDescriptor} :
    x ∈ baseTaskList pd ↔
      ∃ t, t ∈ baseTasks ∧
        (pd.any fun d => taskCompatibleWithPlatform t d.platform) = true ∧
        x = createTask t.name t.args := by
  unfold baseTaskList
  rw [filterMap_if_eq]
  simp only [List.mem_map, List.mem_filter]
  constructor
  · rintro ⟨t, ⟨ht, hc⟩, rfl⟩; exact ⟨t, ht, hc, rfl⟩
  · rintro ⟨t, ht, hc, rfl⟩; exact ⟨t, ⟨ht, hc⟩, rfl⟩

lemma mem_envTaskList {pd : List EnvData} {x : TaskDescriptor} :
    x ∈ envTaskList pd ↔
      ∃ d, d ∈ pd ∧ ∃ t, t ∈ baseTasks ∧ taskCompatibleWithPlatform t d.platform = true ∧
        x = createTask t.name (t.args ++ ["--environment", d.env]) := by
  unfold envTaskList
  simp only [List.mem_flatMap]
  constructor
  · rintro ⟨d, hd, hx⟩
    rw [filterMap_if_eq] at hx
    simp only [List.mem_map, List.mem_filter] at hx
    rcases hx with ⟨t, ⟨ht, hc⟩, rfl⟩
    exact ⟨d, hd, t, ht, hc, rfl⟩
  · rintro ⟨d, hd, t, ht, hc, rfl⟩
    refine ⟨d, hd, ?_⟩
    rw [filterMap_if_eq]
    simp only [List.mem_map, List.mem_filter]
    exact ⟨t, ⟨ht, hc⟩, rfl⟩

lemma mem_getTasksFromConf {conf : ProjectConf} {x : TaskDescriptor} :
    x ∈ getTasksFromConf conf ↔
      x ∈ baseTaskList (extractProjectData conf) ∨
      ((extractProjectData conf).length > 1 ∧ x ∈ envTaskList (extractProjectData conf)) ∨
      x ∈ utilityTasks := by
  unfold getTasksFromConf
  by_cases h : (extractProjectData conf).length > 1 <;>
    simp [h, List.mem_append, or_assoc]

lemma baseTaskList_flag_free (pd : List EnvData) :
    ∀ x ∈ baseTaskList pd, "--environment" ∉ x.args := by
  intro x hx
  rcases mem_baseTaskList.mp hx with ⟨t, ht, _, rfl⟩
  rw [createTask_args]
  exact noEnvFlagInCatalog t ht

lemma utility_flag_free : ∀ x ∈ utilityTasks, "--environment" ∉ x.args := by decide

lemma envTaskList_has_flag (pd : List EnvData) :
    ∀ x ∈ envTaskList pd, "--environment" ∈ x.args := by
  intro x hx
  rcases mem_envTaskList.mp hx with ⟨d, _, t, _, _, rfl⟩
  rw [createTask_args]
  exact List.mem_append.mpr (Or.inr (List.mem_cons_self _ _))

lemma countP_zero_of_flag_free {l : List TaskDescriptor}
    (hl : ∀ x ∈ l, "--environment" ∉ x.args) (pre : List String) (env : String) :
    l.countP (fun x => decide (x.args = pre ++ ["--environment", env])) = 0 := by
  rw [List.countP_eq_zero]
  intro x hx
  simp only [decide_eq_true_eq]
  intro he
  exact hl x hx (he ▸ List.mem_append.mpr (Or.inr (List.mem_cons_self _ _)))

lemma countP_zero_of_has_flag {l : List TaskDescriptor}
    (hl : ∀ x ∈ l, "--environment" ∈ x.args) {A : List String}
    (hA : "--environment" ∉ A) :
    l.countP (fun x => decide (x.args = A)) = 0 := by
  rw [List.countP_eq_zero]
  intro x hx
  simp only [decide_eq_true_eq]
  intro he
  exact hA (he ▸ hl x hx)

lemma countP_baseTaskList (pd : List EnvData) {t : TaskTemplate} (ht : t ∈ baseTasks) :
    (baseTaskList pd).countP (fun x => decide (x.args = t.args)) =
      if (pd.any fun d => taskCompatibleWithPlatform t d.platform) = true then 1 else 0 := by
  unfold baseTaskList
  rw [filterMap_if_eq, List.countP_map, List.countP_filter]
  have hcong :
      (baseTasks.countP fun task =>
        ((fun x => decide (x.args = t.args)) ∘ fun task => createTask task.name task.args) task &&
          (pd.any fun data => taskCompatibleWithPlatform task data.platform)) =
      baseTasks.countP fun task =>
        decide (task.args = t.args) &&
          (pd.any fun data => taskCompatibleWithPlatform t data.platform) := by
    apply List.countP_congr
    intro task _
    simp only [Function.comp_apply, createTask_args, Bool.and_eq_true, decide_eq_true_eq]
    constructor
    · rintro ⟨heq, hany⟩
      refine ⟨heq, ?_⟩
      have : (fun data : EnvData => taskCompatibleWithPlatform task data.platform) =
          fun data : EnvData => taskCompatibleWithPlatform t data.platform := by
        funext data
        exact compat_args_only data.platform heq
      rw [← this]
      exact hany
    · rintro ⟨heq, hany⟩
      refine ⟨heq, ?_⟩
      have : (fun data : EnvData => taskCompatibleWithPlatform task data.platform) =
          fun data : EnvData => taskCompatibleWithPlatform t data.platform := by
        funext data
        exact compat_args_only data.platform heq
      rw [this]
      exact hany
  rw [hcong]
  by_cases hany : (pd.any fun data => taskCompatibleWithPlatform t data.platform) = true
  · rw [if_pos hany]
    have : (baseTasks.countP fun task =>
        decide (task.args = t.args) &&
          (pd.any fun data => taskCompatibleWithPlatform t data.platform)) =
        baseTasks.countP fun task => decide (task.args = t.args) := by
      apply List.countP_congr
      intro task _
      simp [hany]
    rw [this]
    exact countP_args_eq_one catalogArgsNodup ht
  · rw [if_neg hany]
    rw [List.countP_eq_zero]
    intro task _
    simp only [Bool.and_eq_true, decide_eq_true_eq, not_and]
    intro _
    exact hany

lemma countP_env_segment {t : TaskTemplate} (ht : t ∈ baseTasks) (env0 : String)
    (d : EnvData) :
    ((baseTasks.filterMap fun task =>
        if taskCompatibleWithPlatform task d.platform then
          some (createTask task.name (task.args ++ ["--environment", d.env]))
        else none).countP fun x => decide (x.args = t.args ++ ["--environment", env0])) =
      if d.env = env0 ∧ taskCompatibleWithPlatform t d.platform = true then 1 else 0 := by
  rw [filterMap_if_eq, List.countP_map, List.countP_filter]
  by_cases hcase : d.env = env0 ∧ taskCompatibleWithPlatform t d.platform = true
  · rw [if_pos hcase]
    have hcong :
        (baseTasks.countP fun task =>
          ((fun x => decide (x.args = t.args ++ ["--environment", env0])) ∘ fun task =>
            createTask task.name (task.args ++ ["--environment", d.env])) task &&
            taskCompatibleWithPlatform task d.platform) =
        baseTasks.countP fun task => decide (task.args = t.args) := by
      apply List.countP_congr
      intro task htask
      simp only [Function.comp_apply, createTask_args, Bool.and_eq_true, decide_eq_true_eq]
      constructor
      · rintro ⟨heq, _⟩
        exact (append_pair_inj (noEnvFlagInCatalog task htask)
          (noEnvFlagInCatalog t ht) (hcase.1 ▸ heq)).1
      · intro heq
        refine ⟨by rw [heq, hcase.1], ?_⟩
        rw [compat_args_only d.platform heq]
        exact hcase.2
    rw [hcong]
    exact countP_args_eq_one catalogArgsNodup ht
  · rw [if_neg hcase]
    rw [List.countP_eq_zero]
    intro task htask
    simp only [Function.comp_apply, createTask_args, Bool.and_eq_true, decide_eq_true_eq,
      not_and]
    intro heq hcmp
    have hr := append_pair_inj (noEnvFlagInCatalog task htask) (noEnvFlagInCatalog t ht) heq
    exact hcase ⟨hr.2, by rw [← compat_args_only d.platform hr.1]; exact hcmp⟩

lemma countP_envTaskList {pd : List EnvData} (hnd : (pd.map EnvData.env).Nodup)
    {t : TaskTemplate} (ht : t ∈ baseTasks) {d : EnvData} (hd : d ∈ pd)
    (hc : taskCompatibleWithPlatform t d.platform = true) :
    (envTaskList pd).countP
      (fun x => decide (x.args = t.args ++ ["--environment", d.env])) = 1 := by
  unfold envTaskList
  rw [countP_flatMap_sum]
  induction pd with
  | nil => cases hd
  | cons d0 pd ih =>
    rw [List.map_cons, List.nodup_cons] at hnd
    rw [List.map_cons, List.sum_cons, countP_env_segment ht d.env d0]
    rcases List.mem_cons.mp hd with rfl | hd2
    · rw [if_pos ⟨rfl, hc⟩]
      have hz : (pd.map fun data =>
          ((baseTasks.filterMap fun task =>
            if taskCompatibleWithPlatform task data.platform then
              some (createTask task.name (task.args ++ ["--environment", data.env]))
            else none).countP
              fun x => decide (x.args = t.args ++ ["--environment", d.env]))).sum = 0 := by
        apply List.sum_eq_zero
        intro n hn
        rcases List.mem_map.mp hn with ⟨d1, hd1, rfl⟩
        rw [countP_env_segment ht d.env d1]
        rw [if_neg]
        rintro ⟨he, _⟩
        exact hnd.1 (he ▸ List.mem_map_of_mem EnvData.env hd1)
      rw [hz]
    · rw [if_neg, ih hnd.2 hd2]
      rintro ⟨he, _⟩
      exact hnd.1 (he.symm ▸ List.mem_map_of_mem EnvData.env hd2)

lemma strStartsWith_iff {s p : String} :
    strStartsWith s p = true ↔ p.data <+: s.data := by
  unfold strStartsWith
  rw [decide_eq_true_eq, List.prefix_iff_eq_take]
  exact ⟨fun h => h.symm, fun h => h.symm⟩

lemma compat_prog_iff (p : String) :
    taskCompatibleWithPlatform
      { name := "Upload using Programmer", args := ["run", "--target", "program"] } p = true ↔
      p = "atmelavr" := by
  rw [compat_char]
  constructor
  · intro h
    exact h.1 (by decide)
  · intro h
    exact ⟨fun _ => h, fun hm => absurd hm (by decide)⟩

lemma compat_fs_iff (p : String) :
    taskCompatibleWithPlatform
      { name := "Upload SPIFFS image", args := ["run", "--target", "uploadfs"] } p = true ↔
      strStartsWith p "espressif" = true := by
  rw [compat_char]
  constructor
  · intro h
    exact h.2 (by decide)
  · intro h
    exact ⟨fun hm => absurd hm (by decide), fun _ => h⟩

lemma base_presence (conf : ProjectConf) {t : TaskTemplate} (ht : t ∈ baseTasks)
    (hflag : "--environment" ∉ t.args)
    (hutil : ∀ x ∈ utilityTasks, ¬x.args = t.args) :
    (∃ x ∈ getTasksFromConf conf, x.args = t.args) ↔
      ∃ d ∈ extractProjectData conf, taskCompatibleWithPlatform t d.platform = true := by
  constructor
  · rintro ⟨x, hx, hargs⟩
    rcases mem_getTasksFromConf.mp hx with hb | ⟨_, he⟩ | hu
    · rcases mem_baseTaskList.mp hb with ⟨t1, ht1, hany, rfl⟩
      rw [createTask_args] at hargs
      rcases List.any_eq_true.mp hany with ⟨d, hd, hcmp⟩
      rw [compat_args_only d.platform hargs] at hcmp
      exact ⟨d, hd, hcmp⟩
    · exact absurd (hargs ▸ envTaskList_has_flag _ x he) hflag
    · exact absurd hargs (hutil x hu)
  · rintro ⟨d, hd, hcmp⟩
    refine ⟨createTask t.name t.args, ?_, createTask_args _ _⟩
    exact mem_getTasksFromConf.mpr
      (Or.inl (mem_baseTaskList.mpr ⟨t, ht, List.any_eq_true.mpr ⟨d, hd, hcmp⟩, rfl⟩))

lemma qualified_presence (conf : ProjectConf) {t : TaskTemplate} (ht : t ∈ baseTasks)
    (env : String) :
    (∃ x ∈ getTasksFromConf conf, x.args = t.args ++ ["--environment", env]) →
      ∃ d ∈ extractProjectData conf, d.env = env ∧
        taskCompatibleWithPlatform t d.platform = true := by
  rintro ⟨x, hx, hargs⟩
  rcases mem_getTasksFromConf.mp hx with hb | ⟨_, he⟩ | hu
  · have hfree := baseTaskList_flag_free _ x hb
    rw [hargs] at hfree
    exact absurd (List.mem_append.mpr (Or.inr (List.mem_cons_self _ _))) hfree
  · rcases mem_envTaskList.mp he with ⟨d, hd, t1, ht1, hcmp, rfl⟩
    rw [createTask_args] at hargs
    have hr := append_pair_inj (noEnvFlagInCatalog t1 ht1) (noEnvFlagInCatalog t ht) hargs
    refine ⟨d, hd, hr.2, ?_⟩
    rw [← compat_args_only d.platform hr.1]
    exact hcmp
  · have hfree := utility_flag_free x hu
    rw [hargs] at hfree
    exact absurd (List.mem_append.mpr (Or.inr (List.mem_cons_self _ _))) hfree

lemma util_not_catalog : ∀ t ∈ baseTasks, ∀ x ∈ utilityTasks, ¬x.args = t.args := by
  decide

lemma lifecycle_fixed : ∀ (evts : List PIOEvent), (∀ e ∈ evts, e ≠ PIOEvent.trigger) →
    ∀ s0 : ProviderState, s0.pending = false → s0.subs = 0 →
      runLifecycle s0 evts = s0 := by
  intro evts
  induction evts with
  | nil => intro _ s0 _ _; rfl
  | cons e evts ih =>
    intro h s0 hp hs
    have hstep : lifecycleStep s0 e = s0 := by
      cases e with
      | trigger => exact absurd rfl (h _ (List.mem_cons_self _ _))
      | deleteCfg =>
        obtain ⟨su, pe, re⟩ := s0
        simp only [lifecycleStep]
        simp only at hs
        rw [hs]
      | timerFire =>
        simp [lifecycleStep, hp]
    show runLifecycle (lifecycleStep s0 e) evts = s0
    rw [hstep]
    exact ih (fun e2 he => h e2 (List.mem_cons_of_mem _ he)) s0 hp hs

lemma debounce_quiet (t1 : Nat) :
    ∀ (rest : List Nat) (t c : Nat), t1 ≤ t →
      (∀ x ∈ rest, t1 ≤ x ∧ x < t1 + AUTO_REFRESH_DELAY) →
      rest.foldl debounceStep (some (t + AUTO_REFRESH_DELAY), c) =
        (some (rest.getLastD t + AUTO_REFRESH_DELAY), c) := by
  intro rest
  induction rest with
  | nil => intro t c _ _; rfl
  | cons x xs ih =>
    intro t c ht h
    have hx := h x (List.mem_cons_self _ _)
    rw [List.foldl_cons]
    have hstep : debounceStep (some (t + AUTO_REFRESH_DELAY), c) x =
        (some (x + AUTO_REFRESH_DELAY), c) := by
      unfold debounceStep
      have hlt : ¬(t + AUTO_REFRESH_DELAY ≤ x) := by
        have := hx.2
        omega
      simp [hlt]
    rw [hstep, List.getLastD_cons]
    exact ih x c hx.1 fun y hy => h y (List.mem_cons_of_mem _ hy)

/-! Claim theorems. -/

/-- C1: for every task template and platform string, taskCompatibleWithPlatform
holds exactly when the presence of the program argument forces platform
atmelavr and the presence of the uploadfs argument forces a platform starting
with espressif; consequently the program template is present in the generated
output only when an atmelavr environment is declared and the uploadfs
template only when an environment whose platform starts with espressif is
declared, both as a base task and as an environment-qualified task. -/
theorem claim1_platform_filter :
    (∀ (task : TaskTemplate) (platform : String),
      taskCompatibleWithPlatform task platform = true ↔
        (("program" ∈ task.args → platform = "atmelavr") ∧
         ("uploadfs" ∈ task.args → "espressif".data <+: platform.data))) ∧
    (∀ conf : ProjectConf,
      ((∃ x ∈ getTasksFromConf conf, x.args = ["run", "--target", "program"]) ↔
        ∃ d ∈ extractProjectData conf, d.platform = "atmelavr") ∧
      ((∃ x ∈ getTasksFromConf conf, x.args = ["run", "--target", "uploadfs"]) ↔
        ∃ d ∈ extractProjectData conf, "espressif".data <+: d.platform.data) ∧
      (∀ env : String,
        (∃ x ∈ getTasksFromConf conf,
            x.args = ["run", "--target", "program"] ++ ["--environment", env]) →
          ∃ d ∈ extractProjectData conf, d.env = env ∧ d.platform = "atmelavr") ∧
      (∀ env : String,
        (∃ x ∈ getTasksFromConf conf,
            x.args = ["run", "--target", "uploadfs"] ++ ["--environment", env]) →
          ∃ d ∈ extractProjectData conf, d.env = env ∧
            "espressif".data <+: d.platform.data)) := by
  constructor
  · intro task platform
    have h := compat_char task platform
    rw [strStartsWith_iff] at h
    exact h
  · intro conf
    refine ⟨?_, ?_, ?_, ?_⟩
    · exact (base_presence conf
        (t := { name := "Upload using Programmer", args := ["run", "--target", "program"] })
        (by decide) (by decide) (by decide)).trans
        (exists_congr fun d => and_congr_right fun _ => compat_prog_iff d.platform)
    · exact (base_presence conf
        (t := { name := "Upload SPIFFS image", args := ["run", "--target", "uploadfs"] })
        (by decide) (by decide) (by decide)).trans
        (exists_congr fun d => and_congr_right fun _ =>
          (compat_fs_iff d.platform).trans strStartsWith_iff)
    · intro env h
      rcases qualified_presence conf
          (t := { name := "Upload using Programmer", args := ["run", "--target", "program"] })
          (by decide) env h with ⟨d, hd, henv, hcmp⟩
      exact ⟨d, hd, henv, (compat_prog_iff d.platform).mp hcmp⟩
    · intro env h
      rcases qualified_presence conf
          (t := { name := "Upload SPIFFS image", args := ["run", "--target", "uploadfs"] })
          (by decide) env h with ⟨d, hd, henv, hcmp⟩
      exact ⟨d, hd, henv, strStartsWith_iff.mp ((compat_fs_iff d.platform).mp hcmp)⟩

/-- Witness for C1: the Build template is compatible with an arbitrary
platform, and a configuration declaring an atmelavr environment makes the
program task present. -/
theorem claim1_platform_filter_witness :
    taskCompatibleWithPlatform { name := "Build", args := ["run"] } "teensy" = true ∧
    (∃ x ∈ getTasksFromConf [{ name := "env:uno", platform := some "atmelavr" }],
      x.args = ["run", "--target", "program"]) :=
  ⟨(claim1_platform_filter.1 _ _).mpr
      ⟨fun hm => absurd hm (by decide), fun hm => absurd hm (by decide)⟩,
   ((claim1_platform_filter.2 [{ name := "env:uno", platform := some "atmelavr" }]).1).mpr
      ⟨{ env := "uno", platform := "atmelavr" }, by decide, rfl⟩⟩

/-- C3: when no section both starts with the environment marker and declares
a truthy (non-empty) platform value, getTasks returns exactly the three
fixed utility tasks and nothing else. -/
theorem claim3_no_env_only_utility (conf : ProjectConf)
    (h : ∀ sec ∈ conf,
      ¬(strStartsWith sec.name envNamePref = true ∧ platformTruthy sec.platform = true)) :
    getTasksFromConf conf =
      [createTask "Rebuild IntelliSense Index" ["init", "--ide", "vscode"],
       createTask "Update installed platforms, packages and libraries" ["update"],
       createTask "Upgrade PlatformIO Core" ["upgrade"]] ∧
    (getTasksFromConf conf).map TaskDescriptor.displayName =
      ["Rebuild IntelliSense Index",
       "Update installed platforms, packages and libraries",
       "Upgrade PlatformIO Core"] := by
  have hpd : extractProjectData conf = [] := by
    unfold extractProjectData
    rw [List.filterMap_eq_nil_iff]
    intro sec hsec
    have hs := h sec hsec
    obtain ⟨nm, pl⟩ := sec
    cases pl with
    | none => rfl
    | some p =>
      simp only [envOfSection]
      split_ifs with he hw
      · rfl
      · exfalso
        apply hs
        refine ⟨hw, ?_⟩
        simpa [platformTruthy] using he
      · rfl
  have h1 : getTasksFromConf conf = utilityTasks := by
    unfold getTasksFromConf
    rw [hpd]
    rfl
  exact ⟨h1, by rw [h1]; rfl⟩

/-- Witness for C3: a configuration whose sections carry no environment with
a truthy platform yields only the three utility tasks. -/
theorem claim3_no_env_only_utility_witness :
    getTasksFromConf
      [{ name := "global", platform := some "teensy" },
       { name := "env:uno", platform := none },
       { name := "env:bare", platform := some "" }] =
      [createTask "Rebuild IntelliSense Index" ["init", "--ide", "vscode"],
       createTask "Update installed platforms, packages and libraries" ["update"],
       createTask "Upgrade PlatformIO Core" ["upgrade"]] ∧
    (getTasksFromConf
      [{ name := "global", platform := some "teensy" },
       { name := "env:uno", platform := none },
       { name := "env:bare", platform := some "" }]).map TaskDescriptor.displayName =
      ["Rebuild IntelliSense Index",
       "Update installed platforms, packages and libraries",
       "Upgrade PlatformIO Core"] :=
  claim3_no_env_only_utility _ (by decide)

/-- C4: with exactly one declared environment whose platform is compatible
with a given catalog template, the base task for that template appears
exactly once in the output and no environment-qualified task of any template
appears. -/
theorem claim4_single_env (conf : ProjectConf) (d : EnvData) (t : TaskTemplate)
    (hpd : extractProjectData conf = [d])
    (ht : t ∈ baseTasks)
    (hc : taskCompatibleWithPlatform t d.platform = true) :
    ((getTasksFromConf conf).countP fun x => decide (x.args = t.args)) = 1 ∧
    createTask t.name t.args ∈ getTasksFromConf conf ∧
    ∀ x ∈ getTasksFromConf conf, "--environment" ∉ x.args := by
  have hany : ([d].any fun d2 => taskCompatibleWithPlatform t d2.platform) = true := by
    simp [hc]
  have hsplit : getTasksFromConf conf = baseTaskList [d] ++ utilityTasks := by
    unfold getTasksFromConf
    rw [hpd]
    simp
  refine ⟨?_, ?_, ?_⟩
  · rw [hsplit, List.countP_append, countP_baseTaskList [d] ht, if_pos hany]
    have hu : utilityTasks.countP (fun x => decide (x.args = t.args)) = 0 := by
      rw [List.countP_eq_zero]
      intro x hx
      simp only [decide_eq_true_eq]
      exact util_not_catalog t ht x hx
    rw [hu]
  · rw [hsplit]
    refine List.mem_append.mpr (Or.inl ?_)
    exact mem_baseTaskList.mpr ⟨t, ht, hany, rfl⟩
  · intro x hx
    rw [hsplit] at hx
    rcases List.mem_append.mp hx with hb | hu
    · exact baseTaskList_flag_free [d] x hb
    · exact utility_flag_free x hu

/-- Witness for C4: a single atmelavr environment produces the base Build
task exactly once and no qualified task. -/
theorem claim4_single_env_witness :
    ((getTasksFromConf [{ name := "env:uno", platform := some "atmelavr" }]).countP
      fun x => decide (x.args = ["run"])) = 1 ∧
    createTask "Build" ["run"] ∈
      getTasksFromConf [{ name := "env:uno", platform := some "atmelavr" }] ∧
    ∀ x ∈ getTasksFromConf [{ name := "env:uno", platform := some "atmelavr" }],
      "--environment" ∉ x.args :=
  claim4_single_env _ { env := "uno", platform := "atmelavr" }
    { name := "Build", args := ["run"] } (by decide) (by decide) (by decide)

/-- C5: the output order is the base tasks in catalog order (each included
exactly when some declared environment is compatible), then, when more than
one environment is declared, the environment-qualified tasks grouped by
environment in configuration declaration order with templates in catalog
order inside each group, then the three fixed utility tasks last. -/
theorem claim5_output_order (conf : ProjectConf) :
    getTasksFromConf conf =
      specBaseSegment (extractProjectData conf) ++
        (if (extractProjectData conf).length > 1 then
          specEnvSegment (extractProjectData conf)
         else []) ++
        utilityTasks := by
  unfold getTasksFromConf specBaseSegment specEnvSegment baseTaskList envTaskList
  simp only [filterMap_if_eq]

/-- C6: when reading or parsing the configuration fails, getTasks returns
the empty task list and shows exactly one error message, with no partially
generated output; on a successful parse no error message is shown and the
generated list is returned. -/
theorem claim6_error_path :
    getTasks ConfigLoadResult.err = ([], 1) ∧
    ∀ conf : ProjectConf, getTasks (ConfigLoadResult.ok conf) = (getTasksFromConf conf, 0) :=
  ⟨rfl, fun _ => rfl⟩

/-- C10: no catalog template carries the environment flag, so coreEnvName is
none on base arguments and every base task keeps the bare template name as
display name; in general a task whose arguments lack the flag gets no
suffix. -/
theorem claim10_base_names :
    (∀ t ∈ baseTasks,
      "--environment" ∉ t.args ∧
      coreEnvName t.args = none ∧
      (createTask t.name t.args).displayName = t.name) ∧
    (∀ (n : String) (args : List String), coreEnvName args = none →
      (createTask n args).displayName = n) := by
  constructor
  · decide
  · intro n args h
    simp [createTask, taskDisplayName, h]

/-- Witness for C10: the Build template and an argument list without the
environment flag. -/
theorem claim10_base_names_witness :
    ("--environment" ∉ (["run"] : List String) ∧ coreEnvName ["run"] = none ∧
      (createTask "Build" ["run"]).displayName = "Build") ∧
    (createTask "Monitor" ["device", "monitor"]).displayName = "Monitor" :=
  ⟨claim10_base_names.1 { name := "Build", args := ["run"] } (by decide),
   claim10_base_names.2 "Monitor" ["device", "monitor"] (by decide)⟩

/-- C2 counterexample: in a configuration with two declared environments one
of which has the empty name (section env: with nothing after the marker),
the compatible pair of the Build template and the empty-named environment
produces a task whose argument list ends with the environment flag and the
empty name, but whose display name is the bare template name Build rather
than the suffixed name demanded by the claim, because the JS truthiness test
on the environment value treats the empty string as absent. -/
theorem claim2_counterexample :
    (extractProjectData [{ name := "env:", platform := some "atmelavr" },
                         { name := "env:x", platform := some "atmelavr" }]).length = 2 ∧
    { env := "", platform := "atmelavr" } ∈
      extractProjectData [{ name := "env:", platform := some "atmelavr" },
                          { name := "env:x", platform := some "atmelavr" }] ∧
    taskCompatibleWithPlatform { name := "Build", args := ["run"] } "atmelavr" = true ∧
    (∃ x ∈ getTasksFromConf [{ name := "env:", platform := some "atmelavr" },
                             { name := "env:x", platform := some "atmelavr" }],
      x.args = ["run", "--environment", ""] ∧ x.displayName = "Build") ∧
    ∀ x ∈ getTasksFromConf [{ name := "env:", platform := some "atmelavr" },
                            { name := "env:x", platform := some "atmelavr" }],
      ¬x.displayName = "Build ()" := by
  decide

/-- C2 amended: in a configuration with distinct section names declaring
more than one environment, every compatible pair of a catalog template and a
declared environment produces exactly one qualified task, whose argument
list is the template arguments followed by the environment flag and the
environment name as the last two elements; its display name carries the
suffix with the environment name in parentheses when that name is
non-empty, and stays the bare template name when the environment name is
empty. -/
theorem claim2_env_tasks (conf : ProjectConf)
    (hnames : (conf.map ConfigSection.name).Nodup)
    (hlen : (extractProjectData conf).length > 1)
    {t : TaskTemplate} (ht : t ∈ baseTasks)
    {d : EnvData} (hd : d ∈ extractProjectData conf)
    (hc : taskCompatibleWithPlatform t d.platform = true) :
    ((getTasksFromConf conf).countP
      fun x => decide (x.args = t.args ++ ["--environment", d.env])) = 1 ∧
    createTask t.name (t.args ++ ["--environment", d.env]) ∈ getTasksFromConf conf ∧
    (createTask t.name (t.args ++ ["--environment", d.env])).displayName =
      (if d.env = "" then t.name else t.name ++ " (" ++ d.env ++ ")") := by
  have hsplit : getTasksFromConf conf =
      baseTaskList (extractProjectData conf) ++
        envTaskList (extractProjectData conf) ++ utilityTasks := by
    unfold getTasksFromConf
    rw [if_pos hlen]
  refine ⟨?_, ?_, ?_⟩
  · rw [hsplit, List.countP_append, List.countP_append]
    rw [countP_zero_of_flag_free (baseTaskList_flag_free _) t.args d.env,
      countP_zero_of_flag_free utility_flag_free t.args d.env,
      countP_envTaskList (envNames_nodup hnames) ht hd hc]
  · exact mem_getTasksFromConf.mpr
      (Or.inr (Or.inl ⟨hlen, mem_envTaskList.mpr ⟨d, hd, t, ht, hc, rfl⟩⟩))
  · show taskDisplayName t.name (t.args ++ ["--environment", d.env]) = _
    rw [displayName_append (noEnvFlagInCatalog t ht)]

/-- Witness for the amended C2: two environments, the Build template and the
uno environment. -/
theorem claim2_env_tasks_witness :
    ((getTasksFromConf [{ name := "env:uno", platform := some "atmelavr" },
                        { name := "env:esp", platform := some "espressif32" }]).countP
      fun x => decide (x.args = ["run"] ++ ["--environment", "uno"])) = 1 ∧
    createTask "Build" (["run"] ++ ["--environment", "uno"]) ∈
      getTasksFromConf [{ name := "env:uno", platform := some "atmelavr" },
                        { name := "env:esp", platform := some "espressif32" }] ∧
    (createTask "Build" (["run"] ++ ["--environment", "uno"])).displayName =
      (if ("uno" : String) = "" then "Build" else "Build" ++ " (" ++ "uno" ++ ")") :=
  claim2_env_tasks
    [{ name := "env:uno", platform := some "atmelavr" },
     { name := "env:esp", platform := some "espressif32" }]
    (by decide) (by decide)
    (t := { name := "Build", args := ["run"] }) (by decide)
    (d := { env := "uno", platform := "atmelavr" }) (by decide) (by decide)

/-- C7 counterexample: a refresh pending at the moment of deletion still
fires.  Starting from the constructor state, the initial timer fires, a
change trigger schedules a refresh, the configuration file is deleted (all
subscriptions are released), and then the still pending timer elapses: a
second refresh runs after the deletion although no further create or change
trigger arrived, and it re-registers all subscriptions. -/
theorem claim7_counterexample :
    (runLifecycle initialState
      [PIOEvent.timerFire, PIOEvent.trigger, PIOEvent.deleteCfg]).refreshes = 1 ∧
    (runLifecycle initialState
      [PIOEvent.timerFire, PIOEvent.trigger, PIOEvent.deleteCfg]).subs = 0 ∧
    (runLifecycle initialState
      [PIOEvent.timerFire, PIOEvent.trigger, PIOEvent.deleteCfg,
       PIOEvent.timerFire]).refreshes = 2 ∧
    (runLifecycle initialState
      [PIOEvent.timerFire, PIOEvent.trigger, PIOEvent.deleteCfg,
       PIOEvent.timerFire]).subs = SUBSCRIPTION_COUNT := by
  decide

/-- C7 amended: the deletion handler releases every registered subscription
and neither schedules nor runs any refresh itself; when no refresh timer is
pending at the moment of deletion, no refresh ever runs afterwards and no
subscription is re-registered unless a new create or change trigger arrives
(whereas a timer already pending at the deletion still fires). -/
theorem claim7_delete_lifecycle (s : ProviderState) :
    (lifecycleStep s PIOEvent.deleteCfg).subs = 0 ∧
    (lifecycleStep s PIOEvent.deleteCfg).pending = s.pending ∧
    (lifecycleStep s PIOEvent.deleteCfg).refreshes = s.refreshes ∧
    (s.pending = false →
      ∀ evts : List PIOEvent, (∀ e ∈ evts, e ≠ PIOEvent.trigger) →
        (runLifecycle (lifecycleStep s PIOEvent.deleteCfg) evts).refreshes = s.refreshes ∧
        (runLifecycle (lifecycleStep s PIOEvent.deleteCfg) evts).subs = 0) := by
  refine ⟨rfl, rfl, rfl, ?_⟩
  intro hp evts hno
  have hfix := lifecycle_fixed evts hno (lifecycleStep s PIOEvent.deleteCfg) hp rfl
  rw [hfix]
  exact ⟨rfl, rfl⟩

/-- Witness for the amended C7: a state with no pending timer; after the
deletion nothing fires over later non-trigger events. -/
theorem claim7_delete_lifecycle_witness :
    (lifecycleStep { subs := 5, pending := false, refreshes := 3 }
      PIOEvent.deleteCfg).subs = 0 ∧
    (runLifecycle
      (lifecycleStep { subs := 5, pending := false, refreshes := 3 } PIOEvent.deleteCfg)
      [PIOEvent.timerFire, PIOEvent.deleteCfg, PIOEvent.timerFire]).refreshes = 3 :=
  ⟨(claim7_delete_lifecycle _).1,
   ((claim7_delete_lifecycle { subs := 5, pending := false, refreshes := 3 }).2.2.2 rfl
     [PIOEvent.timerFire, PIOEvent.deleteCfg, PIOEvent.timerFire] (by decide)).1⟩

/-- C8: a trigger always cancels any pending timer and schedules a fresh one
AUTO_REFRESH_DELAY later; any number of triggers that all lie inside one
debounce window of the first trigger produce exactly one refresh run, and a
further trigger arriving once the window of the last trigger has elapsed
produces exactly one more (two in total). -/
theorem claim8_debounce :
    (∀ (s : Option Nat × Nat) (t : Nat),
      (debounceStep s t).1 = some (t + AUTO_REFRESH_DELAY)) ∧
    (∀ (t1 : Nat) (rest : List Nat),
      (∀ x ∈ rest, t1 ≤ x ∧ x < t1 + AUTO_REFRESH_DELAY) →
      countRegenerations (t1 :: rest) = 1) ∧
    (∀ (t1 t2 : Nat) (rest : List Nat),
      (∀ x ∈ rest, t1 ≤ x ∧ x < t1 + AUTO_REFRESH_DELAY) →
      rest.getLastD t1 + AUTO_REFRESH_DELAY ≤ t2 →
      countRegenerations ((t1 :: rest) ++ [t2]) = 2) := by
  refine ⟨?_, ?_, ?_⟩
  · rintro ⟨pending, fired⟩ t
    rfl
  · intro t1 rest h
    unfold countRegenerations
    rw [List.foldl_cons]
    have h0 : debounceStep (none, 0) t1 = (some (t1 + AUTO_REFRESH_DELAY), 0) := rfl
    rw [h0, debounce_quiet t1 rest t1 0 le_rfl h]
  · intro t1 t2 rest h hlast
    unfold countRegenerations
    have h0 : debounceStep (none, 0) t1 = (some (t1 + AUTO_REFRESH_DELAY), 0) := rfl
    have hinner : List.foldl debounceStep (none, 0) (t1 :: rest) =
        (some (rest.getLastD t1 + AUTO_REFRESH_DELAY), 0) := by
      rw [List.foldl_cons, h0, debounce_quiet t1 rest t1 0 le_rfl h]
    rw [List.foldl_append, hinner, List.foldl_cons, List.foldl_nil]
    unfold debounceStep
    rw [List.getLastD_eq_getLast?] at hlast
    simp [hlast]

/-- Witness for C8: three triggers inside one window yield one refresh; a
fourth trigger after the window yields a second refresh. -/
theorem claim8_debounce_witness :
    (debounceStep (none, 0) 7).1 = some (7 + AUTO_REFRESH_DELAY) ∧
    countRegenerations [0, 100, 500] = 1 ∧
    countRegenerations ([0, 100, 500] ++ [1500]) = 2 :=
  ⟨claim8_debounce.1 (none, 0) 7,
   claim8_debounce.2.1 0 [100, 500] (by decide),
   claim8_debounce.2.2 0 1500 [100, 500] (by decide) (by decide)⟩

/-- C9: executable resolution as coded diverges from the first-match rule of
the claim.  With search path [a, b] and a file system containing both
a\platformio.exe and b\a\platformio.exe, the fold in the code keeps running
after the first match (the JS return inside forEach does not break) and
re-joins the later directory with the already resolved path, returning
b\a\platformio.exe, while the specification model returns the first match
a\platformio.exe.  With no match the code does return the default
unqualified candidate, and off Windows both sides return the bare name
without any search or exe suffix. -/
theorem claim9_resolve_divergence :
    resolvePioCmd true ["a", "b"]
      (fun s => s == "a\\platformio.exe" || s == "b\\a\\platformio.exe") =
      "b\\a\\platformio.exe" ∧
    resolvePioCmdSpec true ["a", "b"]
      (fun s => s == "a\\platformio.exe" || s == "b\\a\\platformio.exe") =
      "a\\platformio.exe" ∧
    (∀ searchPaths : List String,
      resolvePioCmd true searchPaths (fun _ => false) = "platformio.exe" ∧
      resolvePioCmdSpec true searchPaths (fun _ => false) = "platformio.exe") ∧
    (∀ (searchPaths : List String) (isFile : String → Bool),
      resolvePioCmd false searchPaths isFile = "platformio" ∧
      resolvePioCmdSpec false searchPaths isFile = "platformio") := by
  refine ⟨by decide, by decide, ?_, ?_⟩
  · intro searchPaths
    constructor
    · unfold resolvePioCmd
      rw [if_pos rfl]
      induction searchPaths with
      | nil => rfl
      | cons p ps ih => rw [List.foldl_cons]; exact ih
    · unfold resolvePioCmdSpec
      rw [if_pos rfl]
      have : searchPaths.find? (fun item => (fun _ => false) (pathJoin item "platformio.exe")) =
          none := by
        rw [List.find?_eq_none]
        intro x _
        simp
      rw [this]
  · intro searchPaths isFile
    exact ⟨rfl, rfl⟩
